import Mathlib

/-!
Verification development for a small single-user SQL engine
(sources: SQL.hpp, main.cpp).  The data model, the binary codec and the
executor functions are embedded as executable Lean definitions translated
from the C++ sources; the theorems below settle the specification claims.

Modelling conventions:
* machine integers (int64_t) are Lean Int; sizes/counts (size_t, uint16_t)
  are Nat;
* a C++ double is carried as its 64-bit pattern (structure Float64);
* each primitive write of the binary stream (SimpleBinStream) becomes one
  typed token, so a length-prefixed byte stream becomes a token list;
* fallible operations return Option; C++ paths that raise or have
  undefined behaviour (out-of-range access, bad variant access on
  unreachable states) are modelled as failure or identity, with a comment
  at each site.
-/

namespace SQLDB

/-- The 64-bit pattern of a C++ double (IEEE-754 binary64). -/
structure Float64 where
  bits : Nat
deriving DecidableEq, Repr

/-- Sign bit of a double.  -/
def Float64.sign (f : Float64) : Nat := f.bits / 2 ^ 63

/-- Biased exponent field of a double. -/
def Float64.expField (f : Float64) : Nat := (f.bits / 2 ^ 52) % 2 ^ 11

/-- Mantissa field of a double. -/
def Float64.mantissa (f : Float64) : Nat := f.bits % 2 ^ 52

/-- Whether the pattern is a NaN. -/
def Float64.isNaN (f : Float64) : Bool := f.expField == 2047 && f.mantissa != 0

/-- Order key of a non-NaN double: sign-magnitude reading of the pattern,
identifying -0.0 with +0.0.  IEEE ordering of finite/infinite doubles is
monotone in this key. -/
def Float64.key (f : Float64) : Int :=
  let mag : Nat := f.bits % 2 ^ 63
  if mag == 0 then 0
  else if f.bits < 2 ^ 63 then (mag : Int) else -(mag : Int)

/-- The C-style cast (int64_t)d used by Data::applyColumnAdjustments:
truncation toward zero, with the x86 out-of-range/NaN result INT64_MIN. -/
def doubleToInt64 (f : Float64) : Int :=
  if f.expField == 2047 then -(2 ^ 63)
  else
    let mag : Nat :=
      if f.expField == 0 then 0
      else if 1075 ≤ f.expField then (2 ^ 52 + f.mantissa) * 2 ^ (f.expField - 1075)
      else (2 ^ 52 + f.mantissa) / 2 ^ (1075 - f.expField)
    let v : Int := if f.sign == 1 then -(mag : Int) else (mag : Int)
    if v < -(2 ^ 63) ∨ 2 ^ 63 ≤ v then -(2 ^ 63) else v

/-- The cast (double)i used by Data::applyColumnAdjustments: IEEE-754
round-to-nearest-even conversion of an int64 value. -/
def int64ToDouble (i : Int) : Float64 :=
  if i == 0 then ⟨0⟩
  else
    let s : Nat := if i < 0 then 1 else 0
    let n : Nat := i.natAbs
    let k : Nat := Nat.log2 n + 1
    if k ≤ 53 then
      ⟨s * 2 ^ 63 + (1022 + k) * 2 ^ 52 + (n * 2 ^ (53 - k) - 2 ^ 52)⟩
    else
      let shift := k - 53
      let q := n / 2 ^ shift
      let r := n % 2 ^ shift
      let half := 2 ^ (shift - 1)
      let q' := if half < r ∨ (r == half ∧ q % 2 == 1) then q + 1 else q
      if q' == 2 ^ 53 then ⟨s * 2 ^ 63 + (1023 + k) * 2 ^ 52⟩
      else ⟨s * 2 ^ 63 + (1022 + k) * 2 ^ 52 + (q' - 2 ^ 52)⟩

/-- DataType (SQL.hpp): a type code plus the declared size for
char/varchar.  The C++ enum is carried as its underlying integer code so
that decoding, which reads raw bytes into the enum, stays total. -/
structure DataType where
  type : Nat
  size : Nat := 1
deriving DecidableEq, Repr

/-- Enum code DataType::Invalid. -/
def DataType.INVALID : Nat := 0
/-- Enum code DataType::BOOL. -/
def DataType.BOOL : Nat := 1
/-- Enum code DataType::INT. -/
def DataType.INT : Nat := 2
/-- Enum code DataType::FLOAT. -/
def DataType.FLOAT : Nat := 3
/-- Enum code DataType::CHAR. -/
def DataType.CHAR : Nat := 4
/-- Enum code DataType::VARCHAR. -/
def DataType.VARCHAR : Nat := 5
/-- Enum code DataType::TEXT. -/
def DataType.TEXT : Nat := 6

/-- DataType::compatibleType (SQL.hpp): equal type codes are compatible,
and the string family {CHAR, VARCHAR, TEXT} is mutually compatible. -/
def DataType.compatibleType (a other : DataType) : Bool :=
  if a.type == DataType.BOOL then other.type == DataType.BOOL
  else if a.type == DataType.INT then other.type == DataType.INT
  else if a.type == DataType.FLOAT then other.type == DataType.FLOAT
  else if a.type == DataType.CHAR || a.type == DataType.VARCHAR || a.type == DataType.TEXT then
    other.type == DataType.CHAR || other.type == DataType.VARCHAR || other.type == DataType.TEXT
  else false

/-- Column (SQL.hpp): name plus data type.  The non-owning Table back
pointer of the source is dropped; cells are associated to columns
positionally wherever the source resolved the pointer. -/
structure Column where
  name : String
  type : DataType
deriving DecidableEq, Repr

/-- Placeholder column used where the source reads through an index that
is in range by invariant (vector operator[] has no bounds check). -/
def Column.dflt : Column := ⟨"", ⟨DataType.INVALID, 1⟩⟩

/-- Data::Variant (SQL.hpp): std::variant of monostate, bool, int64_t,
double, std::string.  Strings are modelled as Lean strings (the source
operates on bytes; for the ASCII data of this engine the two coincide). -/
inductive Variant where
  | null : Variant
  | bool (b : Bool) : Variant
  | int (i : Int) : Variant
  | float (f : Float64) : Variant
  | str (s : String) : Variant
deriving DecidableEq, Repr

/-- std::variant::index() of a Data::Variant. -/
def Variant.idx : Variant → Nat
  | .null => 0
  | .bool _ => 1
  | .int _ => 2
  | .float _ => 3
  | .str _ => 4

/-- Data::isNull (SQL.hpp). -/
def Variant.isNull (v : Variant) : Bool := v.idx == 0

/-- Data::validateVariant (SQL.hpp): null always valid; BOOL wants a bool,
INT an int64 (or a double when parserValidation), FLOAT a double (or an
int64 when parserValidation), string family a string.  The C++ default
branch raises "Unknown type"; modelled as false. -/
def validateVariant (column : Column) (v : Variant) (parserValidation : Bool) : Bool :=
  if v.idx == 0 then true
  else
    let t := column.type.type
    if t == DataType.BOOL then v.idx == 1
    else if t == DataType.INT then v.idx == 2 || (v.idx == 3 && parserValidation)
    else if t == DataType.FLOAT then (v.idx == 2 && parserValidation) || v.idx == 3
    else if t == DataType.CHAR || t == DataType.VARCHAR || t == DataType.TEXT then v.idx == 4
    else false

/-- Data::applyColumnAdjustments (SQL.hpp): null passes through; INT
truncates a double to int64; FLOAT widens an int64 to double; CHAR pads a
short string with spaces to the declared size and truncates a long one;
VARCHAR truncates a long string; BOOL/TEXT pass through.  The C++
std::get<std::string> on a non-string (unreachable after validation)
raises; modelled as identity, as is the raising default branch. -/
def applyColumnAdjustments (column : Column) (data : Variant) : Variant :=
  if data.idx == 0 then data
  else
    let t := column.type.type
    if t == DataType.BOOL then data
    else if t == DataType.INT then
      match data with
      | .float f => .int (doubleToInt64 f)
      | _ => data
    else if t == DataType.FLOAT then
      match data with
      | .int i => .float (int64ToDouble i)
      | _ => data
    else if t == DataType.CHAR then
      match data with
      | .str s =>
        if s.length < column.type.size then .str (s.pushn ' ' (column.type.size - s.length))
        else if column.type.size < s.length then .str (String.mk (s.toList.take column.type.size))
        else .str s
      | _ => data
    else if t == DataType.VARCHAR then
      match data with
      | .str s =>
        if column.type.size < s.length then .str (String.mk (s.toList.take column.type.size))
        else .str s
      | _ => data
    else data

/-- std::variant operator== on Data::Variant: alternatives must agree,
then payloads are compared (IEEE equality for doubles). -/
def variantEqb : Variant → Variant → Bool
  | .null, .null => true
  | .bool x, .bool y => x == y
  | .int x, .int y => x == y
  | .float x, .float y => !x.isNaN && !y.isNaN && x.key == y.key
  | .str x, .str y => x == y
  | _, _ => false

/-- std::variant operator!= on Data::Variant (the negation of ==, which
also matches IEEE != on doubles). -/
def variantNeb (a b : Variant) : Bool := !(variantEqb a b)

/-- std::variant operator< on Data::Variant: an earlier alternative
compares less than a later one (so monostate/null is less than every
non-null value); equal alternatives compare their payloads. -/
def variantLtb (a b : Variant) : Bool :=
  if a.idx < b.idx then true
  else if b.idx < a.idx then false
  else
    match a, b with
    | .null, .null => false
    | .bool x, .bool y => !x && y
    | .int x, .int y => decide (x < y)
    | .float x, .float y => !x.isNaN && !y.isNaN && decide (x.key < y.key)
    | .str x, .str y => decide (x < y)
    | _, _ => false

/-- std::variant operator<= on Data::Variant. -/
def variantLeb (a b : Variant) : Bool :=
  if a.idx < b.idx then true
  else if b.idx < a.idx then false
  else
    match a, b with
    | .null, .null => true
    | .bool x, .bool y => !x || y
    | .int x, .int y => decide (x ≤ y)
    | .float x, .float y => !x.isNaN && !y.isNaN && decide (x.key ≤ y.key)
    | .str x, .str y => decide (x < y) || x == y
    | _, _ => false

/-- std::variant operator> is defined as the flipped operator<. -/
def variantGtb (a b : Variant) : Bool := variantLtb b a

/-- std::variant operator>= is defined as the flipped operator<=. -/
def variantGeb (a b : Variant) : Bool := variantLeb b a

/-- Tuple (SQL.hpp): one row, a positionally aligned list of cells. -/
abbrev Tuple := List Variant

/-- Table (SQL.hpp): name, filesystem path, ordered columns, rows.  The
Database back pointer is dropped. -/
structure Table where
  name : String
  path : String
  columns : List Column
  tuples : List Tuple
deriving DecidableEq, Repr

/-- Database (SQL.hpp): name, directory path, managed table file paths. -/
structure Database where
  name : String
  path : String
  tables : List String
deriving DecidableEq, Repr

/-- Table::createEmptyTuple (SQL.hpp): appends a row of one null per
column; here the fresh row itself (the append site keeps it explicit). -/
def createEmptyTuple (columns : List Column) : Tuple :=
  columns.map fun _ => Variant.null

/-!  Binary codec.  Each primitive write of SimpleBinStream becomes one
typed token: size_t counts, the uint16_t size, the enum code (written as
its integer), int64_t, double, bool, one std::byte, and length-prefixed
strings (std::string, const char* markers and std::filesystem::path all
serialize as strings). -/

/-- One primitive record of the binary stream. -/
inductive Tok where
  | nat (n : Nat) : Tok
  | u16 (n : Nat) : Tok
  | enumv (n : Nat) : Tok
  | i64 (i : Int) : Tok
  | f64 (f : Float64) : Tok
  | boolv (b : Bool) : Tok
  | byte (n : Nat) : Tok
  | str (s : String) : Tok
deriving DecidableEq, Repr

/-- operator<< for DataType: the enum code then the uint16 size. -/
def encodeDataType (d : DataType) : List Tok :=
  [.enumv d.type, .u16 d.size]

/-- operator>> for DataType. -/
def decodeDataType : List Tok → Option (DataType × List Tok)
  | .enumv t :: .u16 s :: rest => some (⟨t, s⟩, rest)
  | _ => none

/-- operator<< for Column: the name then the data type. -/
def encodeColumn (c : Column) : List Tok :=
  .str c.name :: encodeDataType c.type

/-- operator>> for Column. -/
def decodeColumn : List Tok → Option (Column × List Tok)
  | .str n :: rest =>
    match decodeDataType rest with
    | some (t, rest') => some (⟨n, t⟩, rest')
    | none => none
  | _ => none

/-- operator<< for std::vector<Column>: the count then each column. -/
def encodeColumns (cs : List Column) : List Tok :=
  .nat cs.length :: (cs.map encodeColumn).flatten

/-- The count-driven loop of operator>> for std::vector<Column>. -/
def decodeColumnsN : Nat → List Tok → Option (List Column × List Tok)
  | 0, rest => some ([], rest)
  | n + 1, rest =>
    match decodeColumn rest with
    | some (c, rest') =>
      match decodeColumnsN n rest' with
      | some (cs, rest'') => some (c :: cs, rest'')
      | none => none
    | none => none

/-- operator>> for std::vector<Column>. -/
def decodeColumns : List Tok → Option (List Column × List Tok)
  | .nat n :: rest => decodeColumnsN n rest
  | _ => none

/-- operator<< for Data (SQL.hpp): one byte holding isNull (so 1 when the
value is null, 0 otherwise), then, only when non-null, the payload of
whichever alternative the variant holds. -/
def encodeData (v : Variant) : List Tok :=
  Tok.byte (if v.isNull then 1 else 0) ::
    match v with
    | .null => []
    | .bool b => [.boolv b]
    | .int i => [.i64 i]
    | .float f => [.f64 f]
    | .str s => [.str s]

/-- operator>> for Data (SQL.hpp): a nonzero leading byte means null;
otherwise the payload shape is chosen by the owning column's declared
type, not by a self-describing tag.  The raising default branch
("Unexpected data type") is modelled as failure. -/
def decodeData (c : Column) : List Tok → Option (Variant × List Tok)
  | .byte b :: rest =>
    if b == 0 then
      let t := c.type.type
      if t == DataType.BOOL then
        match rest with
        | .boolv x :: rest' => some (.bool x, rest')
        | _ => none
      else if t == DataType.INT then
        match rest with
        | .i64 x :: rest' => some (.int x, rest')
        | _ => none
      else if t == DataType.FLOAT then
        match rest with
        | .f64 x :: rest' => some (.float x, rest')
        | _ => none
      else if t == DataType.CHAR || t == DataType.VARCHAR || t == DataType.TEXT then
        match rest with
        | .str x :: rest' => some (.str x, rest')
        | _ => none
      else none
    else some (.null, rest)
  | _ => none

/-- operator<< for Tuple: the cell count then each cell. -/
def encodeTuple (tp : Tuple) : List Tok :=
  .nat tp.length :: (tp.map encodeData).flatten

/-- Reading one cell per listed column (the element loop of operator>>
for Tuple, after createEmptyTuple has attached the columns). -/
def decodeDatas : List Column → List Tok → Option (List Variant × List Tok)
  | [], rest => some ([], rest)
  | c :: cs, rest =>
    match decodeData c rest with
    | some (v, rest') =>
      match decodeDatas cs rest' with
      | some (vs, rest'') => some (v :: vs, rest'')
      | none => none
    | none => none

/-- operator>> for Tuple, as invoked by Table decoding: the fresh row made
by createEmptyTuple is resized to the stored count, so the first `count`
columns type the cells.  A stored count larger than the column list would
make the source dereference a null Column pointer; modelled as failure. -/
def decodeTuple (cols : List Column) : List Tok → Option (Tuple × List Tok)
  | .nat n :: rest =>
    if n ≤ cols.length then decodeDatas (cols.take n) rest
    else none
  | _ => none

/-- operator<< for std::vector<Tuple>: the count then each row. -/
def encodeTuples (ts : List Tuple) : List Tok :=
  .nat ts.length :: (ts.map encodeTuple).flatten

/-- The row-count loop of operator>> for Table. -/
def decodeTuplesN (cols : List Column) : Nat → List Tok → Option (List Tuple × List Tok)
  | 0, rest => some ([], rest)
  | n + 1, rest =>
    match decodeTuple cols rest with
    | some (tp, rest') =>
      match decodeTuplesN cols n rest' with
      | some (ts, rest'') => some (tp :: ts, rest'')
      | none => none
    | none => none

/-- operator<< for Table: the "TABLE" marker, name, path, columns, rows
(columns strictly before rows, so decoding can type each cell). -/
def encodeTable (t : Table) : List Tok :=
  .str "TABLE" :: .str t.name :: .str t.path :: (encodeColumns t.columns ++ encodeTuples t.tuples)

/-- operator>> for Table: reads (and ignores the content of) the marker
string, then name, path, columns, the row count, and that many rows each
typed by the just-read columns. -/
def decodeTable (toks : List Tok) : Option (Table × List Tok) :=
  match toks with
  | .str _marker :: .str nm :: .str pth :: rest =>
    match decodeColumns rest with
    | some (cols, rest') =>
      match rest' with
      | .nat n :: rest'' =>
        match decodeTuplesN cols n rest'' with
        | some (ts, rest''') => some (⟨nm, pth, cols, ts⟩, rest''')
        | none => none
      | _ => none
    | none => none
  | _ => none

/-- operator<< for std::vector<std::filesystem::path>. -/
def encodePaths (ps : List String) : List Tok :=
  .nat ps.length :: ps.map .str

/-- The count loop of operator>> for std::vector<std::filesystem::path>. -/
def decodePathsN : Nat → List Tok → Option (List String × List Tok)
  | 0, rest => some ([], rest)
  | n + 1, .str p :: rest =>
    match decodePathsN n rest with
    | some (ps, rest') => some (p :: ps, rest')
    | none => none
  | _ + 1, _ => none

/-- operator>> for std::vector<std::filesystem::path>. -/
def decodePaths : List Tok → Option (List String × List Tok)
  | .nat n :: rest => decodePathsN n rest
  | _ => none

/-- operator<< for Database: the "DATABASE" marker, name, path, table
paths. -/
def encodeDatabase (d : Database) : List Tok :=
  .str "DATABASE" :: .str d.name :: .str d.path :: encodePaths d.tables

/-- operator>> for Database. -/
def decodeDatabase (toks : List Tok) : Option (Database × List Tok) :=
  match toks with
  | .str _marker :: .str nm :: .str pth :: rest =>
    match decodePaths rest with
    | some (ps, rest') => some (⟨nm, pth, ps⟩, rest')
    | none => none
  | _ => none

/-- Well-typedness of one row against a column list: no longer than the
columns, and every non-null cell holds the alternative its column's
declared type decodes (strict validation, parserValidation = false). -/
def wfTuple (cols : List Column) (tp : Tuple) : Bool :=
  tp.length ≤ cols.length && (cols.zip tp).all fun p => validateVariant p.1 p.2 false

/-- Well-typedness of a table: every row is well typed for its columns. -/
def wfTypedTable (t : Table) : Bool :=
  t.tuples.all (wfTuple t.columns)

/-- The row-width invariant of the specification: every row has exactly
one cell per column. -/
def wfTable (t : Table) : Bool :=
  t.tuples.all fun tp => tp.length == t.columns.length

theorem decodeDataType_encode (d : DataType) (r : List Tok) :
    decodeDataType (encodeDataType d ++ r) = some (d, r) := rfl

theorem decodeColumn_encode (c : Column) (r : List Tok) :
    decodeColumn (encodeColumn c ++ r) = some (c, r) := rfl

theorem decodeColumnsN_encode (cs : List Column) (r : List Tok) :
    decodeColumnsN cs.length ((cs.map encodeColumn).flatten ++ r) = some (cs, r) := by
  induction cs generalizing r with
  | nil => rfl
  | cons c cs ih =>
    simp only [List.map_cons, List.flatten_cons, List.append_assoc, List.length_cons,
      decodeColumnsN, decodeColumn_encode, ih]

theorem decodeColumns_encode (cs : List Column) (r : List Tok) :
    decodeColumns (encodeColumns cs ++ r) = some (cs, r) := by
  simp only [encodeColumns, List.cons_append, decodeColumns]
  exact decodeColumnsN_encode cs r

theorem decodeData_encode (c : Column) (v : Variant) (r : List Tok)
    (h : validateVariant c v false = true) :
    decodeData c (encodeData v ++ r) = some (v, r) := by
  cases v with
  | null => rfl
  | bool b =>
    simp only [validateVariant, Variant.idx] at h
    simp only [encodeData, Variant.isNull, Variant.idx, decodeData]
    split_ifs at h ⊢ <;> simp_all
  | int i =>
    simp only [validateVariant, Variant.idx] at h
    simp only [encodeData, Variant.isNull, Variant.idx, decodeData]
    split_ifs at h ⊢ <;> simp_all
  | float f =>
    simp only [validateVariant, Variant.idx] at h
    simp only [encodeData, Variant.isNull, Variant.idx, decodeData]
    split_ifs at h ⊢ <;> simp_all
  | str s =>
    simp only [validateVariant, Variant.idx] at h
    simp only [encodeData, Variant.isNull, Variant.idx, decodeData]
    split_ifs at h ⊢ <;> simp_all

theorem decodeDatas_encode (cols : List Column) (tp : List Variant) (r : List Tok)
    (hlen : tp.length ≤ cols.length)
    (hwf : ((cols.zip tp).all fun p => validateVariant p.1 p.2 false) = true) :
    decodeDatas (cols.take tp.length) ((tp.map encodeData).flatten ++ r) = some (tp, r) := by
  induction tp generalizing cols r with
  | nil => rfl
  | cons v vs ih =>
    cases cols with
    | nil => simp at hlen
    | cons c cs =>
      simp only [List.zip_cons_cons, List.all_cons, Bool.and_eq_true] at hwf
      simp only [List.length_cons, List.take_succ_cons, List.map_cons, List.flatten_cons,
        List.append_assoc, decodeDatas, decodeData_encode c v _ hwf.1,
        ih cs r (by simpa using hlen) hwf.2]

theorem decodeTuple_encode (cols : List Column) (tp : Tuple) (r : List Tok)
    (hwf : wfTuple cols tp = true) :
    decodeTuple cols (encodeTuple tp ++ r) = some (tp, r) := by
  simp only [wfTuple, Bool.and_eq_true, decide_eq_true_eq] at hwf
  simp only [encodeTuple, List.cons_append, decodeTuple, hwf.1, if_pos]
  exact decodeDatas_encode cols tp r hwf.1 hwf.2

theorem decodeTuplesN_encode (cols : List Column) (ts : List Tuple) (r : List Tok)
    (hwf : (ts.all (wfTuple cols)) = true) :
    decodeTuplesN cols ts.length ((ts.map encodeTuple).flatten ++ r) = some (ts, r) := by
  induction ts generalizing r with
  | nil => rfl
  | cons tp ts ih =>
    simp only [List.all_cons, Bool.and_eq_true] at hwf
    simp only [List.length_cons, List.map_cons, List.flatten_cons, List.append_assoc,
      decodeTuplesN, decodeTuple_encode cols tp _ hwf.1, ih r hwf.2]

theorem decodeTable_encode (t : Table) (r : List Tok)
    (hwf : wfTypedTable t = true) :
    decodeTable (encodeTable t ++ r) = some (t, r) := by
  simp only [encodeTable, List.cons_append, List.append_assoc, decodeTable]
  rw [decodeColumns_encode]
  simp only [encodeTuples, List.cons_append]
  rw [decodeTuplesN_encode t.columns t.tuples r hwf]

theorem decodePathsN_encode (ps : List String) (r : List Tok) :
    decodePathsN ps.length (ps.map Tok.str ++ r) = some (ps, r) := by
  induction ps generalizing r with
  | nil => rfl
  | cons p ps ih =>
    simp only [List.length_cons, List.map_cons, List.cons_append, decodePathsN,
      List.append_eq, ih]

theorem decodeDatabase_encode (d : Database) (r : List Tok) :
    decodeDatabase (encodeDatabase d ++ r) = some (d, r) := by
  simp only [encodeDatabase, encodePaths, List.cons_append, decodeDatabase, decodePaths]
  rw [decodePathsN_encode]

/-!  Executor layer (main.cpp).  Files are a map from path strings to
token lists; directory existence is a separate boolean map where needed.
The session-wide thread id used for shadow-file naming is a fixed string
(the engine is single-threaded). -/

/-- The managed files: contents by path, none where no file exists. -/
def FS := String → Option (List Tok)

/-- Pointwise file update (write with some, delete with none). -/
def FS.update (fs : FS) (p : String) (v : Option (List Tok)) : FS :=
  fun q => if q == p then v else fs q

/-- Lookup in the transaction's canonical-to-shadow map (std::map in the
source; an association list here). -/
def lookupMap (m : List (String × String)) (k : String) : Option String :=
  (m.find? fun e => e.1 == k).map (·.2)

/-- Insert-or-assign in the transaction's map. -/
def insertMap (m : List (String × String)) (k v : String) : List (String × String) :=
  if m.any (fun e => e.1 == k) then m.map fun e => if e.1 == k then (k, v) else e
  else m ++ [(k, v)]

/-- TransactionAction (state held for an active transaction): the
canonical-path to shadow-path map accumulated by saveTableFile.  The
freshly parsed action starts with an empty map. -/
structure TransactionAction where
  tables : List (String × String)
deriving DecidableEq, Repr

/-- The constant std::this_thread::get_id() rendering of the session. -/
def threadId : String := "1"

/-- Last component of a path string. -/
def pathFilename (p : String) : String := (p.splitOn "/").getLastD p

/-- threadLocalFile (main.cpp): the file's directory plus the thread id
prefixed to its filename, used as the shadow path. -/
def threadLocalFile (p : String) : String :=
  String.intercalate "/" (p.splitOn "/").dropLast ++ "/" ++ threadId ++ "." ++ pathFilename p

/-- Constant ".metadata" (main.cpp). -/
def metadataFileName : String := ".metadata"

/-- saveDatabaseMetadataFile (main.cpp). -/
def saveDatabaseMetadataFile (fs : FS) (database : Database) : FS :=
  fs.update (database.path ++ "/" ++ metadataFileName) (some (encodeDatabase database))

/-- saveTableFile (main.cpp): with an active transaction the table is
written to the thread-local shadow path and the canonical-to-shadow
mapping is recorded; otherwise the canonical file is overwritten. -/
def saveTableFile (fs : FS) (txn : Option TransactionAction) (t : Table) :
    FS × Option TransactionAction :=
  match txn with
  | some tx =>
    let path := threadLocalFile t.path
    (fs.update path (some (encodeTable t)), some ⟨insertMap tx.tables t.path path⟩)
  | none => (fs.update t.path (some (encodeTable t)), none)

/-- loadTable (main.cpp): the table path must be registered in the
database's table list and the canonical file must exist; if the active
transaction has already shadowed the path the shadow file is read instead;
a read/decode failure ("corupted") is a failure. -/
def loadTable (fs : FS) (database : Database) (txn : Option TransactionAction)
    (tablePath : String) : Option Table :=
  if !database.tables.contains tablePath then none
  else
    let path :=
      match txn with
      | some tx => (lookupMap tx.tables tablePath).getD tablePath
      | none => tablePath
    if (fs tablePath).isNone then none
    else
      match fs path with
      | none => none
      | some toks =>
        match decodeTable toks with
        | some (t, _) => some { t with path := tablePath }
        | none => none

/-- Component after the last dot of a column name (split(name, ".").back()
in the source): the characters after the last '.', or the whole name when
it has none. -/
def lastDotComponent (s : String) : String :=
  String.mk ((s.toList.reverse.takeWhile fun c => c != '.').reverse)

/-- findColumn (main.cpp): first column whose name matches exactly or
whose component after the last dot matches. -/
def findColumn (t : Table) (columnName : String) : Option Nat :=
  t.columns.findIdx? fun c => c.name == columnName || lastDotComponent c.name == columnName

/-- WhereTransaction::Comparison (SQL.hpp). -/
inductive Comparison where
  | equal | notEqual | less | greater | lessEqual | greaterEqual
deriving DecidableEq, Repr

/-- WhereTransaction::Condition::Variant (SQL.hpp): a literal or a column
reference (alternative index 5). -/
inductive CondVal where
  | null : CondVal
  | bool (b : Bool) : CondVal
  | int (i : Int) : CondVal
  | float (f : Float64) : CondVal
  | str (s : String) : CondVal
  | col (c : Column) : CondVal
deriving DecidableEq, Repr

/-- One WHERE/ON condition (SQL.hpp). -/
structure Condition where
  column : String
  comp : Comparison
  value : CondVal
deriving DecidableEq, Repr

/-- extractData (SQL.hpp): the data variant of a condition value; a column
reference is treated as null data for validation purposes. -/
def extractData : CondVal → Variant
  | .null => .null
  | .bool b => .bool b
  | .int i => .int i
  | .float f => .float f
  | .str s => .str s
  | .col _ => .null

/-- The per-condition preparation of applyWhereConditions (main.cpp):
resolve the condition column; for a column-valued condition resolve the
data column too and require compatible types; for a literal, validate it
against the column under relaxed parser rules and adjust it.  The source
re-tests the already-checked left index instead of the data-column index
(a slip), after which a missing data column faults on an out-of-range
access; both are modelled as failure. -/
def resolveCond (t : Table) (cond : Condition) :
    Option (Nat × Comparison × (Nat ⊕ Variant)) :=
  match findColumn t cond.column with
  | none => none
  | some index =>
    match cond.value with
    | .col c =>
      match findColumn t c.name with
      | none => none
      | some dataIndex =>
        if (t.columns.getD index Column.dflt).type.compatibleType
            (t.columns.getD dataIndex Column.dflt).type then
          some (index, cond.comp, Sum.inl dataIndex)
        else none
    | _ =>
      let dataValue := extractData cond.value
      let column := t.columns.getD index Column.dflt
      if validateVariant column dataValue true then
        some (index, cond.comp, Sum.inr (applyColumnAdjustments column dataValue))
      else none

/-- Dispatch over the condition's comparison operator (main.cpp switch). -/
def compareData (comp : Comparison) (a b : Variant) : Bool :=
  match comp with
  | .equal => variantEqb a b
  | .notEqual => variantNeb a b
  | .less => variantLtb a b
  | .greater => variantGtb a b
  | .lessEqual => variantLeb a b
  | .greaterEqual => variantGeb a b

/-- One condition evaluated on one row: the cell of the condition column
against either the cell of the data column or the adjusted literal. -/
def evalCond (tp : Tuple) (rc : Nat × Comparison × (Nat ⊕ Variant)) : Bool :=
  let data := tp.getD rc.1 Variant.null
  let conditionData :=
    match rc.2.2 with
    | .inl j => tp.getD j Variant.null
    | .inr v => v
  compareData rc.2.1 data conditionData

/-- applyWhereConditions (main.cpp): prepare every condition, then keep
the indices of the rows for which the number of conditions that hold
equals the number of conditions.  Every error path of the source returns
the empty selection after reporting; modelled as none. -/
def applyWhereConditions (t : Table) (conditions : List Condition) : Option (List Nat) :=
  match conditions.mapM (resolveCond t) with
  | none => none
  | some resolved =>
    some ((List.range t.tuples.length).filter fun i =>
      (resolved.countP fun rc => evalCond (t.tuples.getD i []) rc) == resolved.length)

/-- The row-building part of insertIntoTable (main.cpp): a fresh all-null
row; refuse more values than columns; validate every supplied value under
relaxed parser rules (the loop reports every mismatch and aborts before
writing if any failed); copy the values in by position and apply the
per-column adjustments to the whole row. -/
def insertCore (t : Table) (values : List Variant) : Option Table :=
  let tuple := createEmptyTuple t.columns
  if tuple.length < values.length then none
  else
    let valid := (List.range values.length).all fun i =>
      validateVariant (t.columns.getD i Column.dflt) (values.getD i .null) true
    if valid then
      let filled := tuple.mapIdx fun i v => if i < values.length then values.getD i .null else v
      let adjusted := (t.columns.zip filled).map fun p => applyColumnAdjustments p.1 p.2
      some { t with tuples := t.tuples ++ [adjusted] }
    else none

/-- insertIntoTable (main.cpp) from the load to the save: none models
"the operation reported and aborted with no filesystem effect". -/
def insertIntoTable (fs : FS) (txn : Option TransactionAction) (database : Database)
    (tableName : String) (values : List Variant) : Option (FS × Option TransactionAction) :=
  let path := database.path ++ "/" ++ tableName ++ ".table"
  match loadTable fs database txn path with
  | none => none
  | some table =>
    match insertCore table values with
    | none => none
    | some t' => some (saveTableFile fs txn t')

/-- The three secondary actions of alterTable (main.cpp). -/
inductive AlterKind where
  | add | remove | alter
deriving DecidableEq, Repr

/-- The table mutation of alterTable (main.cpp): Add refuses an existing
name or a dotted name, appends the column and a null cell to every row;
Remove erases the column and its position from every row; Alter replaces
the column definition and nullifies the column in every row. -/
def alterCore (table : Table) (alterAction : AlterKind) (alterTarget : Column) : Option Table :=
  let index := table.columns.findIdx? fun c => c.name == alterTarget.name
  match alterAction with
  | .add =>
    match index with
    | some _ => none
    | none =>
      if alterTarget.name.toList.contains '.' then none
      else some { table with
        columns := table.columns ++ [alterTarget],
        tuples := table.tuples.map fun tp => tp ++ [Variant.null] }
  | .remove =>
    match index with
    | none => none
    | some i => some { table with
        columns := table.columns.eraseIdx i,
        tuples := table.tuples.map fun tp => tp.eraseIdx i }
  | .alter =>
    match index with
    | none => none
    | some i => some { table with
        columns := table.columns.set i alterTarget,
        tuples := table.tuples.map fun tp => tp.set i Variant.null }

/-- The write-back loop of updateTable (main.cpp): overwrite the target
column's cell in every selected row. -/
def updateSelected (tuples : List Tuple) (selectedTuples : List Nat) (columnIndex : Nat)
    (value : Variant) : List Tuple :=
  selectedTuples.foldl (fun ts i => ts.set i ((ts.getD i []).set columnIndex value)) tuples

/-- The removal loop of deleteFromTable (main.cpp): repeatedly erase the
front selected index and shift the remaining indices down. -/
def deleteRows : List Tuple → List Nat → List Tuple
  | tuples, [] => tuples
  | tuples, i :: rest => deleteRows (tuples.eraseIdx i) (rest.map (· - 1))
termination_by _ sel => sel.length
decreasing_by simp only [List.length_map, List.length_cons]; omega

/-- updateTable (main.cpp) from the load to the save. -/
def updateTable (fs : FS) (txn : Option TransactionAction) (database : Database)
    (tableName columnName : String) (conditions : List Condition) (value : Variant) :
    Option (FS × Option TransactionAction) :=
  let path := database.path ++ "/" ++ tableName ++ ".table"
  match loadTable fs database txn path with
  | none => none
  | some table =>
    match findColumn table columnName with
    | none => none
    | some columnIndex =>
      match applyWhereConditions table conditions with
      | none => none
      | some selectedTuples =>
        if selectedTuples.isEmpty then none
        else some (saveTableFile fs txn
          { table with tuples := updateSelected table.tuples selectedTuples columnIndex value })

/-- deleteFromTable (main.cpp) from the load to the save. -/
def deleteFromTable (fs : FS) (txn : Option TransactionAction) (database : Database)
    (tableName : String) (conditions : List Condition) :
    Option (FS × Option TransactionAction) :=
  let path := database.path ++ "/" ++ tableName ++ ".table"
  match loadTable fs database txn path with
  | none => none
  | some table =>
    match applyWhereConditions table conditions with
    | none => none
    | some selectedTuples =>
      if selectedTuples.isEmpty then none
      else some (saveTableFile fs txn
        { table with tuples := deleteRows table.tuples selectedTuples })

/-- QueryTableTransaction::TableAlias::JoinType (SQL.hpp). -/
inductive JoinType where
  | inner | left
deriving DecidableEq, Repr

/-- One FROM entry: table name, alias, join kind (SQL.hpp). -/
structure TableAlias where
  table : String
  aliasName : String
  joinType : JoinType
deriving DecidableEq, Repr

/-- TableAlias::isOuterJoin (SQL.hpp). -/
def TableAlias.isOuterJoin (a : TableAlias) : Bool :=
  match a.joinType with
  | .inner => false
  | .left => true

/-- A SELECT statement: FROM entries, WHERE conditions, and either an
explicit projection list or the wildcard (none). -/
structure QueryTableAction where
  tableAliases : List TableAlias
  conditions : List Condition
  columns : Option (List String)
deriving DecidableEq, Repr

/-- Writing a source row into a fresh all-null row starting at an offset
(the element-by-element copies of queryTable's join assembly). -/
def writeAt (base : List Variant) (off : Nat) (src : List Variant) : List Variant :=
  base.mapIdx fun j v => if off ≤ j ∧ j < off + src.length then src.getD (j - off) v else v

/-- The default-constructed accumulator table of queryTable. -/
def emptyTable : Table := ⟨"", "", [], []⟩

/-- One fold step of queryTable's join assembly (main.cpp): the column
lists are concatenated; an empty side short-circuits to the other side
wholesale; otherwise the cartesian product of the rows, and for a LEFT
outer join additionally every left row padded with nulls on the right and
every right row padded with nulls on the left. -/
def joinStep (table tempTable : Table) (outer : Bool) : Table :=
  let cols := table.columns ++ tempTable.columns
  if table.tuples.isEmpty && !tempTable.tuples.isEmpty then tempTable
  else if !table.tuples.isEmpty && tempTable.tuples.isEmpty then table
  else
    let cart := table.tuples.flatMap fun oldTuple =>
      tempTable.tuples.map fun newTuple =>
        writeAt (writeAt (createEmptyTuple cols) 0 oldTuple) oldTuple.length newTuple
    let extras :=
      if outer then
        (table.tuples.map fun oldTuple => writeAt (createEmptyTuple cols) 0 oldTuple) ++
        (tempTable.tuples.map fun newTuple =>
          writeAt (createEmptyTuple cols) table.columns.length newTuple)
      else []
    { emptyTable with columns := cols, tuples := cart ++ extras }

/-- Qualifying a loaded table for the join (main.cpp): every column name
gets the alias prefix, then a synthetic integer row-index column
__indexK__ is prepended with each row's position. -/
def prepIndexed (i : Nat) (a : TableAlias) (t : Table) : Table :=
  let renamed := t.columns.map fun c => { c with name := a.aliasName ++ "." ++ c.name }
  { t with
    columns := ⟨"__index" ++ toString i ++ "__", ⟨DataType.INT, 1⟩⟩ :: renamed,
    tuples := t.tuples.mapIdx fun k tp => Variant.int (k : Int) :: tp }

/-- The load-and-fold loop of queryTable (main.cpp).  Loads always pass a
null program state, never the session's transaction. -/
def loadJoin (fs : FS) (database : Database) :
    List (Nat × TableAlias) → Table → Option Table
  | [], table => some table
  | (i, a) :: rest, table =>
    match loadTable fs database none (database.path ++ "/" ++ a.table ++ ".table") with
    | none => none
    | some tempTable =>
      loadJoin fs database rest (joinStep table (prepIndexed i a tempTable) a.isOuterJoin)

/-- The outer-join re-inclusion scan of queryTable (main.cpp): gather the
left indices already selected, then add every row whose left index is
still missing and whose right index cell is null.  A selected row with a
non-integer, non-null index cell would raise in the source (unreachable
for assembled tables). -/
def reinclude (t : Table) (selectedTuples : List Nat) (rightIndex : Nat) : List Nat :=
  let indeciesFound : List Int := selectedTuples.filterMap fun s =>
    match (t.tuples.getD s []).getD 0 Variant.null with
    | .int k => some k
    | _ => none
  let step := fun (acc : List Nat × List Int) (i : Nat) =>
    let tuple := t.tuples.getD i []
    let dataIndex : Int :=
      match tuple.getD 0 Variant.null with
      | .int k => k
      | _ => -1
    if !acc.2.contains dataIndex && (tuple.getD rightIndex Variant.null).isNull then
      (acc.1 ++ [i], acc.2 ++ [dataIndex])
    else acc
  ((List.range t.tuples.length).foldl step (selectedTuples, indeciesFound)).1

/-- The WHERE phase of queryTable (main.cpp): skipped when there are no
conditions; an empty (or failed) selection ends the query; with more than
one FROM entry whose second entry is an outer join, unmatched left rows
are re-included; the selected rows replace the table's rows.  The source
indexes with -1 when __index1__ is absent (second side empty); modelled as
failure. -/
def queryFilterPhase (action : QueryTableAction) (table : Table) : Option Table :=
  if action.conditions.isEmpty then some table
  else
    match applyWhereConditions table action.conditions with
    | none => none
    | some selectedTuples =>
      if selectedTuples.isEmpty then none
      else
        let sel :=
          if 1 < action.tableAliases.length &&
             (action.tableAliases.getD 1 ⟨"", "", .inner⟩).isOuterJoin then
            match findColumn table "__index1__" with
            | some rightIndex => some (reinclude table selectedTuples rightIndex)
            | none => none
          else some selectedTuples
        match sel with
        | none => none
        | some sel' =>
          some { table with tuples := sel'.map fun i => table.tuples.getD i [] }

/-- Whether one character list starts with another. -/
def startsWithCL : List Char → List Char → Bool
  | [], _ => true
  | _ :: _, [] => false
  | p :: ps, c :: cs => p == c && startsWithCL ps cs

/-- Whether a character list occurs inside another. -/
def hasSubstrCL (pat : List Char) : List Char → Bool
  | [] => startsWithCL pat []
  | c :: cs => startsWithCL pat (c :: cs) || hasSubstrCL pat cs

/-- Whether a column name contains the substring "__index"
(name.find("__index") != npos in the source). -/
def containsIndexMark (s : String) : Bool := hasSubstrCL "__index".toList s.toList

/-- The wildcard branch of queryTable's projection: drop every column
whose name contains "__index", and its position from every row. -/
def removeIndexCols (t : Table) : Table :=
  let keep := (List.range t.columns.length).filter fun j =>
    !(containsIndexMark (t.columns.getD j Column.dflt).name)
  { t with
    columns := keep.map fun j => t.columns.getD j Column.dflt,
    tuples := t.tuples.map fun tp => keep.map fun j => tp.getD j Variant.null }

/-- The explicit-projection branch of queryTable: resolve every requested
name (failure if any is missing) and keep exactly those columns. -/
def projectTable (t : Table) (cols : List String) : Option Table :=
  match cols.mapM (findColumn t) with
  | none => none
  | some columnsToKeep =>
    some { emptyTable with
      columns := columnsToKeep.map fun i => t.columns.getD i Column.dflt,
      tuples := t.tuples.map fun tp => columnsToKeep.map fun keep => tp.getD keep Variant.null }

/-- queryTable (main.cpp): refuse duplicate aliases; load and join the
FROM entries, always from the canonical files (a null program state is
passed to every load, so the session's transaction and its shadow files
are never consulted); filter; project; a table with no columns displays
nothing.  The Bool records whether the active-transaction note is shown;
the rows shown are the returned table's. -/
def queryTable (fs : FS) (txn : Option TransactionAction) (database : Database)
    (action : QueryTableAction) : Option (Bool × Table) :=
  let aliasNames := action.tableAliases.map (·.aliasName)
  if aliasNames.dedup.length != aliasNames.length then none
  else
    match loadJoin fs database action.tableAliases.enum emptyTable with
    | none => none
    | some table0 =>
      match queryFilterPhase action table0 with
      | none => none
      | some table1 =>
        match
          (match action.columns with
            | some cols => projectTable table1 cols
            | none => some (removeIndexCols table1)) with
        | none => none
        | some table2 =>
          if table2.columns.isEmpty then none
          else some (txn.isSome, table2)

/-- TransactionAction::{Begin, Commit, Abort} (SQL.hpp). -/
inductive TransactionOp where
  | begin | commit | abort
deriving DecidableEq, Repr

/-- The commit loop (main.cpp): copy every shadow file over its canonical
counterpart, then remove the shadow file. -/
def commitFiles (fs : FS) (tables : List (String × String)) : FS :=
  tables.foldl (fun f e => (f.update e.1 (f e.2)).update e.2 none) fs

/-- The abort loop (main.cpp): remove every shadow file. -/
def abortFiles (fs : FS) (tables : List (String × String)) : FS :=
  tables.foldl (fun f e => f.update e.2 none) fs

/-- transaction (main.cpp): Begin is refused when a transaction is already
active (everything unchanged), otherwise installs the freshly parsed
action with its empty table map; Commit/Abort are refused when none is
active, otherwise merge/discard the shadow files and clear the
transaction.  The Bool is false exactly on the refused paths. -/
def transaction (op : TransactionOp) (fs : FS) (txn : Option TransactionAction) :
    FS × Option TransactionAction × Bool :=
  match op with
  | .begin =>
    match txn with
    | some t => (fs, some t, false)
    | none => (fs, some ⟨[]⟩, true)
  | .commit =>
    match txn with
    | none => (fs, none, false)
    | some t => (commitFiles fs t.tables, none, true)
  | .abort =>
    match txn with
    | none => (fs, none, false)
    | some t => (abortFiles fs t.tables, none, true)

/-- Directory existence plus file contents, for the database-level
operations. -/
structure DirFS where
  dirs : String → Bool
  files : FS

/-- ProgramState (main.cpp): the managed directory, the current database,
the active transaction. -/
structure ProgramState where
  databaseDirectory : String
  currentDatabase : Option Database
  transaction : Option TransactionAction

/-- useDatabase (main.cpp): the directory must exist, no transaction may
be active, the metadata file must exist and decode; on success the decoded
database becomes the session's current database. -/
def useDatabase (world : DirFS) (st : ProgramState) (name : String) : ProgramState :=
  let path := st.databaseDirectory ++ "/" ++ name
  if !world.dirs path then st
  else if st.transaction.isSome then st
  else if (world.files (path ++ "/" ++ metadataFileName)).isNone then st
  else
    match decodeDatabase ((world.files (path ++ "/" ++ metadataFileName)).getD []) with
    | some (db, _) => { st with currentDatabase := some db }
    | none => st

/-- createDatabase (main.cpp): refused when the directory already exists,
when the name contains a period, or during a transaction; otherwise the
directory and metadata file are created and, only when no database is
currently in use, the new database is put into use. -/
def createDatabase (world : DirFS) (st : ProgramState) (name : String) :
    DirFS × ProgramState :=
  let path := st.databaseDirectory ++ "/" ++ name
  if world.dirs path then (world, st)
  else if name.toList.contains '.' then (world, st)
  else if st.transaction.isSome then (world, st)
  else
    let database : Database := ⟨name, path, []⟩
    let world' : DirFS :=
      ⟨fun q => q == path || world.dirs q, saveDatabaseMetadataFile world.files database⟩
    let st' := if st.currentDatabase.isNone then useDatabase world' st name else st
    (world', st')

/-!  Claim theorems. -/

/-- A table whose single cell holds a bool while its column is declared
INT: the tag of the stored variant does not match the column.  Such
tables are reachable (UPDATE assigns the SET literal without validating
it against the column). -/
def c1BadTable : Table :=
  ⟨"t1", "db/t1.table", [⟨"a", ⟨DataType.INT, 1⟩⟩], [[Variant.bool true]]⟩

/-- C1 counterexample: the codec does not round-trip for every Table
instance.  Encoding writes the payload of whichever alternative the cell
holds, while decoding reads the shape of the column's declared type, so a
cell whose tag mismatches its column (here a bool in an INT column)
produces bytes that fail to decode. -/
theorem c1_codec_roundtrip_counterexample :
    decodeTable (encodeTable c1BadTable) = none := by decide

/-- Concrete well-typed witnesses for C1. -/
def c1Table : Table :=
  ⟨"t1", "db/t1.table", [⟨"a", ⟨DataType.INT, 1⟩⟩, ⟨"s", ⟨DataType.VARCHAR, 3⟩⟩],
    [[Variant.int 1, Variant.str "ab"], [Variant.null, Variant.null]]⟩

/-- Concrete database for the C1 witness. -/
def c1Database : Database := ⟨"db", "db", ["db/t1.table"]⟩

/-- C1 (amended): the binary codec round-trips for every Database, and
for every Table whose rows are no longer than its column list and whose
non-null cells hold exactly the alternative their column's declared type
decodes (the shape the validated insert path produces): decoding the
encoded bytes yields a structurally equal instance and consumes exactly
the encoded tokens. -/
theorem c1_codec_roundtrip :
    (∀ (t : Table) (r : List Tok), wfTypedTable t = true →
      decodeTable (encodeTable t ++ r) = some (t, r)) ∧
    (∀ (d : Database) (r : List Tok), decodeDatabase (encodeDatabase d ++ r) = some (d, r)) :=
  ⟨decodeTable_encode, decodeDatabase_encode⟩

/-- Witness for C1 at a concrete table and database. -/
theorem c1_codec_roundtrip_witness :
    wfTypedTable c1Table = true ∧
    decodeTable (encodeTable c1Table ++ []) = some (c1Table, []) ∧
    decodeDatabase (encodeDatabase c1Database ++ []) = some (c1Database, []) :=
  ⟨by decide, c1_codec_roundtrip.1 c1Table [] (by decide), c1_codec_roundtrip.2 c1Database []⟩

/-- C2: an INSERT INTO whose supplied literals contain at least one value
failing relaxed tag-validation against its column's declared type aborts
with no filesystem effect: insertIntoTable returns none, so no new row is
persisted and the table file (canonical or shadow) is untouched. -/
theorem c2_insert_no_partial_write (fs : FS) (txn : Option TransactionAction)
    (database : Database) (tableName : String) (values : List Variant) (table : Table)
    (hload : loadTable fs database txn (database.path ++ "/" ++ tableName ++ ".table") = some table)
    (hbad : ∃ i, i < values.length ∧ i < table.columns.length ∧
      validateVariant (table.columns.getD i Column.dflt) (values.getD i Variant.null) true = false) :
    insertIntoTable fs txn database tableName values = none := by
  obtain ⟨i, hiv, hic, hval⟩ := hbad
  suffices h : insertCore table values = none by
    simp only [insertIntoTable, hload, h]
  unfold insertCore
  by_cases hsz : (createEmptyTuple table.columns).length < values.length
  · simp only [hsz, if_true]
  · have hvalid : ((List.range values.length).all fun i =>
        validateVariant (table.columns.getD i Column.dflt) (values.getD i Variant.null) true) = false := by
      rw [List.all_eq_false]
      exact ⟨i, List.mem_range.mpr hiv, by simpa using hval⟩
    simp only [hsz, if_false, hvalid, Bool.false_eq_true]

/-- Concrete table for the C2 witness. -/
def c2Table : Table := ⟨"t1", "db/t1.table", [⟨"a", ⟨DataType.INT, 1⟩⟩], [[Variant.int 4]]⟩

/-- Concrete database for the C2 witness. -/
def c2Database : Database := ⟨"db", "db", ["db/t1.table"]⟩

/-- Concrete filesystem for the C2 witness. -/
def c2Fs : FS := fun p => if p == "db/t1.table" then some (encodeTable c2Table) else none

/-- Witness for C2: inserting a string literal into an INT column writes
nothing. -/
theorem c2_insert_no_partial_write_witness :
    loadTable c2Fs c2Database none (c2Database.path ++ "/" ++ "t1" ++ ".table") = some c2Table ∧
    insertIntoTable c2Fs none c2Database "t1" [Variant.str "x"] = none :=
  ⟨by decide,
   c2_insert_no_partial_write c2Fs none c2Database "t1" [Variant.str "x"] c2Table
     (by decide) ⟨0, by decide, by decide, by decide⟩⟩

/-- C6: string adjustment on insert.  A string shorter than a CHAR(n)
column's declared length is right-padded with spaces to exactly n
characters; a string longer than a VARCHAR(n) column's declared length is
truncated to exactly n characters; and every successful insert stores, at
each supplied position, exactly the column-adjusted value. -/
theorem c6_string_adjustment :
    (∀ (nm : String) (n : Nat) (s : String), s.length < n →
      applyColumnAdjustments ⟨nm, ⟨DataType.CHAR, n⟩⟩ (Variant.str s) =
        Variant.str (s.pushn ' ' (n - s.length)) ∧
      (s.pushn ' ' (n - s.length)).length = n) ∧
    (∀ (nm : String) (n : Nat) (s : String), n < s.length →
      applyColumnAdjustments ⟨nm, ⟨DataType.VARCHAR, n⟩⟩ (Variant.str s) =
        Variant.str (String.mk (s.toList.take n)) ∧
      (String.mk (s.toList.take n)).length = n) ∧
    (∀ (t : Table) (values : List Variant) (t' : Table), insertCore t values = some t' →
      ∀ i, i < values.length →
        (t'.tuples.getLastD []).getD i Variant.null =
          applyColumnAdjustments (t.columns.getD i Column.dflt) (values.getD i Variant.null)) := by
  refine ⟨?_, ?_, ?_⟩
  · intro nm n s h
    refine ⟨?_, ?_⟩
    · simp [applyColumnAdjustments, Variant.idx, DataType.BOOL, DataType.INT, DataType.FLOAT,
        DataType.CHAR, h]
    · rw [String.length_pushn]
      omega
  · intro nm n s h
    refine ⟨?_, ?_⟩
    · simp [applyColumnAdjustments, Variant.idx, DataType.BOOL, DataType.INT, DataType.FLOAT,
        DataType.CHAR, DataType.VARCHAR, h, Nat.not_lt.mpr (Nat.le_of_lt h)]
    · have hs : s.toList.length = s.length := rfl
      show (s.toList.take n).length = n
      rw [List.length_take]
      omega
  · intro t values t' hins i hi
    unfold insertCore at hins
    by_cases hsz : (createEmptyTuple t.columns).length < values.length
    · simp only [hsz, if_true] at hins
      exact absurd hins (by simp)
    · simp only [hsz, if_false] at hins
      by_cases hvalid : ((List.range values.length).all fun i =>
          validateVariant (t.columns.getD i Column.dflt) (values.getD i Variant.null) true) = true
      · rw [if_pos hvalid] at hins
        have ht' : t'.tuples = t.tuples ++
            [(t.columns.zip ((createEmptyTuple t.columns).mapIdx fun i v =>
              if i < values.length then values.getD i Variant.null else v)).map
              fun p => applyColumnAdjustments p.1 p.2] := by
          cases hins
          rfl
        have hlen0 : (createEmptyTuple t.columns).length = t.columns.length := by
          simp [createEmptyTuple]
        have hlenf : ((createEmptyTuple t.columns).mapIdx fun i v =>
            if i < values.length then values.getD i Variant.null else v).length =
            t.columns.length := by
          rw [List.length_mapIdx, hlen0]
        have hic : i < t.columns.length := by
          rw [hlen0] at hsz
          omega
        rw [ht', List.getLastD_concat]
        have hzlen : (t.columns.zip ((createEmptyTuple t.columns).mapIdx fun i v =>
            if i < values.length then values.getD i Variant.null else v)).length =
            t.columns.length := by
          rw [List.length_zip, hlenf]
          omega
        rw [List.getD_eq_getElem _ _ (by rw [List.length_map, hzlen]; exact hic)]
        rw [List.getElem_map, List.getElem_zip, List.getElem_mapIdx]
        congr 1
        · exact (List.getD_eq_getElem _ _ hic).symm
        · simp only [hi, if_true]
      · rw [if_neg hvalid] at hins
        exact absurd hins (by simp)

/-- Concrete table for the C6 witness. -/
def c6Table : Table := ⟨"t", "p", [⟨"c", ⟨DataType.CHAR, 5⟩⟩], []⟩

/-- Concrete insert result for the C6 witness. -/
def c6Result : Table := ⟨"t", "p", [⟨"c", ⟨DataType.CHAR, 5⟩⟩], [[Variant.str "abc  "]]⟩

/-- Witness for C6: "abc" into CHAR(5) pads to "abc  " (length 5),
"abcdefg" into VARCHAR(5) truncates to length 5, and a concrete insert
stores the adjusted value. -/
theorem c6_string_adjustment_witness :
    (applyColumnAdjustments ⟨"c", ⟨DataType.CHAR, 5⟩⟩ (Variant.str "abc") =
      Variant.str ("abc".pushn ' ' (5 - "abc".length)) ∧
      ("abc".pushn ' ' (5 - "abc".length)).length = 5) ∧
    (applyColumnAdjustments ⟨"c", ⟨DataType.VARCHAR, 5⟩⟩ (Variant.str "abcdefg") =
      Variant.str (String.mk ("abcdefg".toList.take 5)) ∧
      (String.mk ("abcdefg".toList.take 5)).length = 5) ∧
    (c6Result.tuples.getLastD []).getD 0 Variant.null =
      applyColumnAdjustments (c6Table.columns.getD 0 Column.dflt)
        (([Variant.str "abc"] : List Variant).getD 0 Variant.null) :=
  ⟨c6_string_adjustment.1 "c" 5 "abc" (by decide),
   c6_string_adjustment.2.1 "c" 5 "abcdefg" (by decide),
   c6_string_adjustment.2.2 c6Table [Variant.str "abc"] c6Result (by decide) 0 (by decide)⟩

/-- C7 counterexample: the tag byte written for a Value is not 0 when the
value is null.  Encoding writes std::byte(isNull), so a null cell's tag
byte is 1 and a non-null cell's tag byte is 0 - the opposite polarity of
the claim "one tag byte that is 0 when and only when the value is null". -/
theorem c7_value_tag_encoding_counterexample :
    encodeData Variant.null = [Tok.byte 1] ∧
    encodeData (Variant.int 7) = [Tok.byte 0, Tok.i64 7] ∧
    (1 : Nat) ≠ 0 :=
  ⟨rfl, rfl, by decide⟩

/-- C7 (amended): a Value encodes as one tag byte equal to its isNull
flag (1 when null, 0 when non-null), followed by the payload only when
non-null; decoding treats any nonzero tag byte as null, and reads the
payload shape (bool, int64, float64, or string) dictated by the owning
column's declared type rather than a self-describing tag. -/
theorem c7_value_tag_encoding (c : Column) (b : Nat) (bb : Bool) (i : Int) (f : Float64)
    (s : String) (r : List Tok) :
    encodeData Variant.null = [Tok.byte 1] ∧
    encodeData (Variant.bool bb) = [Tok.byte 0, Tok.boolv bb] ∧
    encodeData (Variant.int i) = [Tok.byte 0, Tok.i64 i] ∧
    encodeData (Variant.float f) = [Tok.byte 0, Tok.f64 f] ∧
    encodeData (Variant.str s) = [Tok.byte 0, Tok.str s] ∧
    (b ≠ 0 → decodeData c (Tok.byte b :: r) = some (Variant.null, r)) ∧
    (c.type.type = DataType.BOOL →
      decodeData c (Tok.byte 0 :: Tok.boolv bb :: r) = some (Variant.bool bb, r)) ∧
    (c.type.type = DataType.INT →
      decodeData c (Tok.byte 0 :: Tok.i64 i :: r) = some (Variant.int i, r)) ∧
    (c.type.type = DataType.FLOAT →
      decodeData c (Tok.byte 0 :: Tok.f64 f :: r) = some (Variant.float f, r)) ∧
    ((c.type.type = DataType.CHAR ∨ c.type.type = DataType.VARCHAR ∨
        c.type.type = DataType.TEXT) →
      decodeData c (Tok.byte 0 :: Tok.str s :: r) = some (Variant.str s, r)) := by
  refine ⟨rfl, rfl, rfl, rfl, rfl, ?_, ?_, ?_, ?_, ?_⟩
  · intro hb
    have hb' : (b == 0) = false := by simpa using hb
    simp [decodeData, hb']
  · intro h
    simp [decodeData, h, DataType.BOOL]
  · intro h
    simp [decodeData, h, DataType.BOOL, DataType.INT]
  · intro h
    simp [decodeData, h, DataType.BOOL, DataType.INT, DataType.FLOAT]
  · rintro (h | h | h) <;>
      simp [decodeData, h, DataType.BOOL, DataType.INT, DataType.FLOAT, DataType.CHAR,
        DataType.VARCHAR, DataType.TEXT]

/-- Witness for C7 at a concrete INT column. -/
theorem c7_value_tag_encoding_witness :
    decodeData ⟨"a", ⟨DataType.INT, 1⟩⟩ [Tok.byte 1, Tok.i64 7] =
      some (Variant.null, [Tok.i64 7]) ∧
    decodeData ⟨"a", ⟨DataType.INT, 1⟩⟩ [Tok.byte 0, Tok.i64 7] = some (Variant.int 7, []) :=
  ⟨(c7_value_tag_encoding ⟨"a", ⟨DataType.INT, 1⟩⟩ 1 true 7 ⟨0⟩ "" [Tok.i64 7]).2.2.2.2.2.1
      (by decide),
   (c7_value_tag_encoding ⟨"a", ⟨DataType.INT, 1⟩⟩ 0 true 7 ⟨0⟩ "" []).2.2.2.2.2.2.2.1 rfl⟩

/-- C4: the session transaction state machine.  Begin moves Idle (none)
to Active (some, with the freshly parsed action's empty table map);
Commit and Abort move Active back to Idle; a second Begin while Active is
refused (success flag false) and leaves the filesystem, the active
transaction and its staged table mapping unchanged; Commit/Abort while
Idle are likewise refused without effect.  At most one transaction exists
per session by construction (the state is a single Option). -/
theorem c4_transaction_state_machine (fs : FS) (t : TransactionAction) :
    transaction TransactionOp.begin fs none = (fs, some ⟨[]⟩, true) ∧
    transaction TransactionOp.begin fs (some t) = (fs, some t, false) ∧
    (transaction TransactionOp.commit fs (some t)).2.1 = none ∧
    (transaction TransactionOp.abort fs (some t)).2.1 = none ∧
    transaction TransactionOp.commit fs none = (fs, none, false) ∧
    transaction TransactionOp.abort fs none = (fs, none, false) :=
  ⟨rfl, rfl, rfl, rfl, rfl, rfl⟩

/-- C10: when CREATE DATABASE succeeds (directory absent, no period in
the name, no active transaction) and no database is in use, the newly
created database becomes the session's current database; when a database
was already in use, the current database is unchanged. -/
theorem c10_create_database_current (world : DirFS) (st : ProgramState) (name : String)
    (hdir : world.dirs (st.databaseDirectory ++ "/" ++ name) = false)
    (hname : name.toList.contains '.' = false)
    (htxn : st.transaction = none) :
    (st.currentDatabase = none →
      (createDatabase world st name).2.currentDatabase =
        some ⟨name, st.databaseDirectory ++ "/" ++ name, []⟩) ∧
    (∀ db, st.currentDatabase = some db →
      (createDatabase world st name).2.currentDatabase = some db) := by
  have hmeta : decodeDatabase
      (encodeDatabase ⟨name, st.databaseDirectory ++ "/" ++ name, []⟩) =
      some (⟨name, st.databaseDirectory ++ "/" ++ name, []⟩, []) := by
    have h := decodeDatabase_encode ⟨name, st.databaseDirectory ++ "/" ++ name, []⟩ []
    simpa using h
  constructor
  · intro hcur
    simp only [createDatabase, hdir, Bool.false_eq_true, if_false, hname, htxn,
      Option.isSome_none, hcur, Option.isNone_none, if_true, useDatabase,
      saveDatabaseMetadataFile, FS.update, metadataFileName]
    simp [hmeta, htxn]
  · intro db hcur
    simp only [createDatabase, hdir, Bool.false_eq_true, if_false, hname, htxn,
      Option.isSome_none, hcur, Option.isNone_some, if_false]

/-- Concrete world for the C10 witness. -/
def c10World : DirFS := ⟨fun _ => false, fun _ => none⟩

/-- Witness for C10 at a concrete empty world: creating "d" with no
current database puts it in use; creating it while "other" is in use
leaves "other" in use. -/
theorem c10_create_database_current_witness :
    (createDatabase c10World ⟨"root", none, none⟩ "d").2.currentDatabase =
      some ⟨"d", "root" ++ "/" ++ "d", []⟩ ∧
    (createDatabase c10World ⟨"root", some ⟨"other", "root/other", []⟩, none⟩ "d").2.currentDatabase =
      some ⟨"other", "root/other", []⟩ :=
  ⟨(c10_create_database_current c10World ⟨"root", none, none⟩ "d"
      (by decide) (by decide) rfl).1 rfl,
   (c10_create_database_current c10World ⟨"root", some ⟨"other", "root/other", []⟩, none⟩ "d"
      (by decide) (by decide) rfl).2 ⟨"other", "root/other", []⟩ rfl⟩

/-- Propositional reading of the row-width invariant. -/
theorem wfTable_iff (t : Table) :
    wfTable t = true ↔ ∀ tp ∈ t.tuples, tp.length = t.columns.length := by
  simp [wfTable, List.all_eq_true]

/-- A found index is inside the list. -/
theorem findIdx_lt_length_of_eq_some {p : α → Bool} {l : List α} {i : Nat}
    (h : l.findIdx? p = some i) : i < l.length := by
  rw [List.findIdx?_eq_some_iff_findIdx_eq] at h
  exact h.1

/-- The update write-back keeps every row's width. -/
theorem updateSelected_length (L : Nat) (sel : List Nat) (ts : List Tuple) (ci : Nat)
    (v : Variant) (h : ∀ tp ∈ ts, tp.length = L) :
    ∀ tp ∈ updateSelected ts sel ci v, tp.length = L := by
  induction sel generalizing ts with
  | nil => exact h
  | cons i rest ih =>
    simp only [updateSelected, List.foldl_cons] at *
    apply ih
    rcases Nat.lt_or_ge i ts.length with hi | hi
    · intro tp htp
      rcases List.mem_or_eq_of_mem_set htp with hmem | heq
      · exact h tp hmem
      · rw [heq, List.length_set]
        exact h _ (List.getD_eq_getElem ts [] hi ▸ List.getElem_mem hi)
    · rw [List.set_eq_of_length_le hi]
      exact h

/-- The delete loop only removes whole rows. -/
theorem deleteRows_mem {tp : Tuple} :
    ∀ {ts : List Tuple} {sel : List Nat}, tp ∈ deleteRows ts sel → tp ∈ ts := by
  intro ts sel
  induction ts, sel using deleteRows.induct with
  | case1 ts => intro h; simpa [deleteRows] using h
  | case2 ts i rest ih =>
    intro h
    rw [deleteRows] at h
    exact List.mem_of_mem_eraseIdx (ih h)

/-- C9: every completed table mutation preserves the invariant that each
row's length equals the number of columns: ALTER ADD/REMOVE/ALTER, the
row built by INSERT, the UPDATE write-back, the DELETE removal loop, and
decoding a table file produced by encoding a well-formed table. -/
theorem c9_row_width_invariant :
    (∀ (table : Table) (k : AlterKind) (c : Column) (t' : Table),
      wfTable table = true → alterCore table k c = some t' → wfTable t' = true) ∧
    (∀ (t : Table) (values : List Variant) (t' : Table),
      wfTable t = true → insertCore t values = some t' → wfTable t' = true) ∧
    (∀ (t : Table) (sel : List Nat) (ci : Nat) (v : Variant),
      wfTable t = true →
      wfTable { t with tuples := updateSelected t.tuples sel ci v } = true) ∧
    (∀ (t : Table) (sel : List Nat),
      wfTable t = true →
      wfTable { t with tuples := deleteRows t.tuples sel } = true) ∧
    (∀ (t : Table) (r : List Tok) (t' : Table) (r' : List Tok),
      wfTable t = true → wfTypedTable t = true →
      decodeTable (encodeTable t ++ r) = some (t', r') → wfTable t' = true) := by
  refine ⟨?_, ?_, ?_, ?_, ?_⟩
  · intro table k c t' hwf halt
    rw [wfTable_iff] at hwf ⊢
    cases k with
    | add =>
      simp only [alterCore] at halt
      rcases hidx : table.columns.findIdx? fun cc => cc.name == c.name with _ | j
      · rw [hidx] at halt
        by_cases hdot : c.name.toList.contains '.' = true
        · rw [if_pos hdot] at halt
          exact absurd halt (by simp)
        · rw [if_neg hdot] at halt
          simp only [Option.some.injEq] at halt
          subst halt
          intro tp htp
          simp only [List.mem_map] at htp
          obtain ⟨tp0, htp0, rfl⟩ := htp
          simp [hwf tp0 htp0]
      · rw [hidx] at halt
        exact absurd halt (by simp)
    | remove =>
      simp only [alterCore] at halt
      rcases hidx : table.columns.findIdx? fun cc => cc.name == c.name with _ | j
      · rw [hidx] at halt
        exact absurd halt (by simp)
      · rw [hidx] at halt
        simp only [Option.some.injEq] at halt
        subst halt
        have hj : j < table.columns.length := findIdx_lt_length_of_eq_some hidx
        intro tp htp
        simp only [List.mem_map] at htp
        obtain ⟨tp0, htp0, rfl⟩ := htp
        have hl := hwf tp0 htp0
        rw [List.length_eraseIdx_of_lt (hl ▸ hj), List.length_eraseIdx_of_lt hj, hl]
    | alter =>
      simp only [alterCore] at halt
      rcases hidx : table.columns.findIdx? fun cc => cc.name == c.name with _ | j
      · rw [hidx] at halt
        exact absurd halt (by simp)
      · rw [hidx] at halt
        simp only [Option.some.injEq] at halt
        subst halt
        intro tp htp
        simp only [List.mem_map] at htp
        obtain ⟨tp0, htp0, rfl⟩ := htp
        simp [hwf tp0 htp0]
  · intro t values t' hwf hins
    rw [wfTable_iff] at hwf ⊢
    unfold insertCore at hins
    by_cases hsz : (createEmptyTuple t.columns).length < values.length
    · simp [hsz] at hins
    · simp only [hsz, if_false] at hins
      by_cases hvalid : ((List.range values.length).all fun i =>
          validateVariant (t.columns.getD i Column.dflt) (values.getD i Variant.null) true) = true
      · rw [if_pos hvalid] at hins
        simp only [Option.some.injEq] at hins
        subst hins
        intro tp htp
        simp only [List.mem_append, List.mem_singleton] at htp
        rcases htp with htp | rfl
        · exact hwf tp htp
        · rw [List.length_map, List.length_zip, List.length_mapIdx]
          simp [createEmptyTuple]
      · rw [if_neg hvalid] at hins
        exact absurd hins (by simp)
  · intro t sel ci v hwf
    rw [wfTable_iff] at hwf ⊢
    exact updateSelected_length t.columns.length sel t.tuples ci v hwf
  · intro t sel hwf
    rw [wfTable_iff] at hwf ⊢
    intro tp htp
    exact hwf tp (deleteRows_mem htp)
  · intro t r t' r' hwf hty hdec
    rw [decodeTable_encode t r hty] at hdec
    simp only [Option.some.injEq, Prod.mk.injEq] at hdec
    rw [← hdec.1]
    exact hwf

/-- Concrete table for the C9 witness. -/
def c9Table : Table :=
  ⟨"t", "p", [⟨"a", ⟨DataType.INT, 1⟩⟩, ⟨"b", ⟨DataType.TEXT, 1⟩⟩],
    [[Variant.int 1, Variant.str "x"], [Variant.null, Variant.null]]⟩

/-- Witness for C9 at a concrete mutation of each kind. -/
theorem c9_row_width_invariant_witness :
    wfTable c9Table = true ∧
    (∀ t', alterCore c9Table AlterKind.remove ⟨"b", ⟨DataType.TEXT, 1⟩⟩ = some t' →
      wfTable t' = true) ∧
    wfTable { c9Table with tuples := deleteRows c9Table.tuples [0] } = true :=
  ⟨by decide,
   fun t' h => c9_row_width_invariant.1 c9Table AlterKind.remove ⟨"b", ⟨DataType.TEXT, 1⟩⟩ t'
     (by decide) h,
   c9_row_width_invariant.2.2.2.1 c9Table [0] (by decide)⟩

/-- Table with one INT column and one all-null row for the C8
counterexample. -/
def c8Table : Table := ⟨"t", "p", [⟨"a", ⟨DataType.INT, 1⟩⟩], [[Variant.null]]⟩

/-- C8 counterexample: a row whose compared cell is Null IS selected by an
ordering comparison.  std::variant's operator< compares the alternative
index first and monostate is alternative 0, so a Null cell compares less
than any non-null value: the condition `a < 5` selects the row whose cell
a is Null, contradicting the claim that Null rows are never selected by
<, >, <=, >=. -/
theorem c8_where_semantics_counterexample :
    applyWhereConditions c8Table [⟨"a", Comparison.less, CondVal.int 5⟩] = some [0] ∧
    (c8Table.tuples.getD 0 []).getD 0 Variant.null = Variant.null := by
  exact ⟨by decide, rfl⟩

/-- C8 (amended): a row is selected iff every condition in the list
evaluates true under its operator applied to the two resolved values;
Null compares equal only to Null under = (and different from everything
non-null under !=); but for the ordering operators mixed alternatives are
decided by the variant's alternative order with Null lowest: a Null cell
is selected by < and <= against every non-null value and never by > or
>=. -/
theorem c8_where_semantics (t : Table) (conditions : List Condition) (sel : List Nat)
    (hsel : applyWhereConditions t conditions = some sel) :
    (∀ i, i ∈ sel ↔ i < t.tuples.length ∧
      ∀ rc ∈ (conditions.mapM (resolveCond t)).getD [],
        evalCond (t.tuples.getD i []) rc = true) ∧
    (∀ v, variantEqb Variant.null v = true ↔ v = Variant.null) ∧
    (∀ v, variantNeb Variant.null v = true ↔ v ≠ Variant.null) ∧
    (∀ v, v ≠ Variant.null →
      variantLtb Variant.null v = true ∧ variantLeb Variant.null v = true ∧
      variantGtb Variant.null v = false ∧ variantGeb Variant.null v = false) := by
  refine ⟨?_, ?_, ?_, ?_⟩
  · intro i
    unfold applyWhereConditions at hsel
    cases hmap : conditions.mapM (resolveCond t) with
    | none => rw [hmap] at hsel; cases hsel
    | some resolved =>
      rw [hmap] at hsel
      simp only [Option.some.injEq] at hsel
      subst hsel
      simp only [List.mem_filter, List.mem_range, Option.getD_some, beq_iff_eq]
      rw [List.countP_eq_length]
  · intro v
    cases v <;> simp [variantEqb]
  · intro v
    cases v <;> simp [variantNeb, variantEqb]
  · intro v hv
    cases v with
    | null => exact absurd rfl hv
    | bool b => exact ⟨rfl, rfl, rfl, rfl⟩
    | int i => exact ⟨rfl, rfl, rfl, rfl⟩
    | float f => exact ⟨rfl, rfl, rfl, rfl⟩
    | str s => exact ⟨rfl, rfl, rfl, rfl⟩

/-- Table for the C8 witness: an INT column with rows 3 and 7. -/
def c8WTable : Table :=
  ⟨"t", "p", [⟨"a", ⟨DataType.INT, 1⟩⟩], [[Variant.int 3], [Variant.int 7]]⟩

/-- Witness for C8 at a concrete selection: `a < 5` on rows 3 and 7
selects exactly row 0, which indeed satisfies every resolved condition,
and the Null ordering facts hold at the value 5. -/
theorem c8_where_semantics_witness :
    (0 ∈ [0] ↔ 0 < c8WTable.tuples.length ∧
      ∀ rc ∈ (([⟨"a", Comparison.less, CondVal.int 5⟩] :
          List Condition).mapM (resolveCond c8WTable)).getD [],
        evalCond (c8WTable.tuples.getD 0 []) rc = true) ∧
    (variantLtb Variant.null (Variant.int 5) = true ∧
     variantLeb Variant.null (Variant.int 5) = true ∧
     variantGtb Variant.null (Variant.int 5) = false ∧
     variantGeb Variant.null (Variant.int 5) = false) :=
  ⟨(c8_where_semantics c8WTable [⟨"a", Comparison.less, CondVal.int 5⟩] [0] (by decide)).1 0,
   (c8_where_semantics c8WTable [⟨"a", Comparison.less, CondVal.int 5⟩] [0]
      (by decide)).2.2.2 (Variant.int 5) (by decide)⟩

/-- A load with no transaction reads the filesystem only at the canonical
path. -/
theorem loadTable_fs_agree (fs1 fs2 : FS) (database : Database) (p : String)
    (h : fs1 p = fs2 p) :
    loadTable fs1 database none p = loadTable fs2 database none p := by
  simp only [loadTable, h]

/-- The query's load-and-join fold depends on the filesystem only at the
canonical paths of its FROM entries. -/
theorem loadJoin_fs_agree (fs1 fs2 : FS) (database : Database)
    (l : List (Nat × TableAlias)) (acc : Table)
    (h : ∀ pr ∈ l, fs1 (database.path ++ "/" ++ pr.2.table ++ ".table") =
      fs2 (database.path ++ "/" ++ pr.2.table ++ ".table")) :
    loadJoin fs1 database l acc = loadJoin fs2 database l acc := by
  induction l generalizing acc with
  | nil => rfl
  | cons pr rest ih =>
    obtain ⟨i, a⟩ := pr
    rw [loadJoin, loadJoin,
      loadTable_fs_agree fs1 fs2 database _ (h (i, a) (List.mem_cons_self _ _))]
    cases loadTable fs2 database none (database.path ++ "/" ++ a.table ++ ".table") with
    | none => rfl
    | some tempTable => exact ih _ fun pr hpr => h pr (List.mem_cons_of_mem _ hpr)

/-- C5: SELECT rows are computed only from the canonical on-disk table
files.  Two runs of the same SELECT whose filesystems agree on the
canonical paths of the queried tables return identical rows, regardless
of the session's transaction state in either run and regardless of any
other file (in particular any staged shadow file): queryTable hands every
load a null program state, so uncommitted staged writes never influence
SELECT output. -/
theorem c5_select_reads_canonical (fs1 fs2 : FS) (txn1 txn2 : Option TransactionAction)
    (database : Database) (action : QueryTableAction)
    (hagree : ∀ a ∈ action.tableAliases,
      fs1 (database.path ++ "/" ++ a.table ++ ".table") =
      fs2 (database.path ++ "/" ++ a.table ++ ".table")) :
    (queryTable fs1 txn1 database action).map (·.2) =
    (queryTable fs2 txn2 database action).map (·.2) := by
  unfold queryTable
  by_cases hdup : ((action.tableAliases.map (·.aliasName)).dedup.length !=
      (action.tableAliases.map (·.aliasName)).length) = true
  · rw [if_pos hdup, if_pos hdup]
  · rw [if_neg hdup, if_neg hdup,
      loadJoin_fs_agree fs1 fs2 database action.tableAliases.enum emptyTable
        (fun pr hpr => hagree pr.2 (List.snd_mem_of_mem_enum hpr))]
    cases loadJoin fs2 database action.tableAliases.enum emptyTable with
    | none => rfl
    | some table0 =>
      dsimp only
      cases queryFilterPhase action table0 with
      | none => rfl
      | some table1 =>
        dsimp only
        cases action.columns with
        | none =>
          dsimp only
          by_cases hemp : (removeIndexCols table1).columns.isEmpty = true
          · simp [hemp]
          · simp [hemp]
        | some cols =>
          dsimp only
          cases projectTable table1 cols with
          | none => rfl
          | some table2 =>
            dsimp only
            by_cases hemp : table2.columns.isEmpty = true
            · simp [hemp]
            · simp [hemp]

/-- Table for the C5 witness. -/
def c5Table : Table := ⟨"t1", "db/t1.table", [⟨"a", ⟨DataType.INT, 1⟩⟩], [[Variant.int 1]]⟩

/-- Database for the C5 witness. -/
def c5Database : Database := ⟨"db", "db", ["db/t1.table"]⟩

/-- Canonical filesystem for the C5 witness. -/
def c5Fs1 : FS := fun p => if p == "db/t1.table" then some (encodeTable c5Table) else none

/-- Same canonical file, plus a staged shadow file with an extra row and a
transaction mapping the canonical path to it. -/
def c5Fs2 : FS := fun p =>
  if p == "db/t1.table" then some (encodeTable c5Table)
  else if p == "db/1.t1.table" then
    some (encodeTable { c5Table with tuples := c5Table.tuples ++ [[Variant.int 2]] })
  else none

/-- Witness for C5: a SELECT under an active transaction with a staged
shadow file returns the same rows as a SELECT with no transaction and no
shadow file. -/
theorem c5_select_reads_canonical_witness :
    (queryTable c5Fs1 none c5Database ⟨[⟨"t1", "x", JoinType.inner⟩], [], none⟩).map (·.2) =
    (queryTable c5Fs2 (some ⟨[("db/t1.table", "db/1.t1.table")]⟩) c5Database
      ⟨[⟨"t1", "x", JoinType.inner⟩], [], none⟩).map (·.2) :=
  c5_select_reads_canonical c5Fs1 c5Fs2 none (some ⟨[("db/t1.table", "db/1.t1.table")]⟩)
    c5Database ⟨[⟨"t1", "x", JoinType.inner⟩], [], none⟩
    (by intro a ha; fin_cases ha; rfl)

/-- Left table for the C3 counterexample: one row. -/
def c3T1 : Table := ⟨"t1", "db/t1.table", [⟨"a", ⟨DataType.INT, 1⟩⟩], [[Variant.int 1]]⟩

/-- Right table for the C3 counterexample: one row. -/
def c3T2 : Table := ⟨"t2", "db/t2.table", [⟨"b", ⟨DataType.INT, 1⟩⟩], [[Variant.int 2]]⟩

/-- Database for the C3 counterexample. -/
def c3Database : Database := ⟨"db", "db", ["db/t1.table", "db/t2.table"]⟩

/-- Filesystem for the C3 counterexample. -/
def c3Fs : FS := fun p =>
  if p == "db/t1.table" then some (encodeTable c3T1)
  else if p == "db/t2.table" then some (encodeTable c3T2)
  else none

/-- C3 counterexample: a LEFT JOIN of two one-row tables with no WHERE
produces 3 rows, not the claimed 1*1 + 1 = 2 (one extra per unmatched
left row) - the outer-join branch appends BOTH every left row padded with
nulls on the right AND every right row padded with nulls on the left,
unconditionally. -/
theorem c3_join_cardinality_counterexample :
    (queryTable c3Fs none c3Database
        ⟨[⟨"t1", "x", JoinType.inner⟩, ⟨"t2", "y", JoinType.left⟩], [], none⟩).map
      (fun r => r.2.tuples.length) = some 3 ∧
    (3 : Nat) ≠ 1 * 1 + 1 ∧ (3 : Nat) ≠ 1 * 1 := by
  exact ⟨by decide, by decide, by decide⟩

/-- The cartesian product of the row lists has product length. -/
theorem cart_length (ts1 ts2 : List Tuple) (f : Tuple → Tuple → Tuple) :
    (ts1.flatMap fun o => ts2.map fun n => f o n).length = ts1.length * ts2.length := by
  induction ts1 with
  | nil => simp
  | cons a as ih => simp [List.flatMap_cons, ih, Nat.succ_mul, Nat.add_comm]

/-- Row count of one join step between two nonempty tables. -/
theorem joinStep_tuples_length (t1 t2 : Table) (o : Bool)
    (h1 : t1.tuples ≠ []) (h2 : t2.tuples ≠ []) :
    (joinStep t1 t2 o).tuples.length =
      t1.tuples.length * t2.tuples.length +
        (if o then t1.tuples.length + t2.tuples.length else 0) := by
  have e1 : t1.tuples.isEmpty = false := by simpa [List.isEmpty_iff] using h1
  have e2 : t2.tuples.isEmpty = false := by simpa [List.isEmpty_iff] using h2
  simp only [joinStep, e1, e2, Bool.false_and, Bool.and_false, Bool.false_eq_true, if_false]
  rw [List.length_append, cart_length]
  cases o with
  | false => simp
  | true => simp [List.length_append]

/-- A join step with an empty accumulator and a nonempty new table takes
the new table wholesale. -/
theorem joinStep_of_empty_acc (t1 t2 : Table) (o : Bool) (h1 : t1.tuples = [])
    (h2 : t2.tuples ≠ []) : joinStep t1 t2 o = t2 := by
  have e2 : t2.tuples.isEmpty = false := by simpa [List.isEmpty_iff] using h2
  simp [joinStep, h1, e2]

/-- Qualifying and index-prefixing a table keeps its row count. -/
theorem prepIndexed_tuples_length (i : Nat) (a : TableAlias) (t : Table) :
    (prepIndexed i a t).tuples.length = t.tuples.length := by
  simp [prepIndexed]

/-- Dropping the synthetic index columns keeps the row count. -/
theorem removeIndexCols_tuples_length (t : Table) :
    (removeIndexCols t).tuples.length = t.tuples.length := by
  simp [removeIndexCols]

/-- A successful load under the canonical encoding of a well-typed table
returns it, with the path restored to the canonical one. -/
theorem loadTable_of_encode (fs : FS) (database : Database) (T : Table) (p : String)
    (hwf : wfTypedTable T = true)
    (hreg : database.tables.contains p = true)
    (hfs : fs p = some (encodeTable T)) :
    loadTable fs database none p = some { T with path := p } := by
  have hdec := decodeTable_encode T [] hwf
  rw [List.append_nil] at hdec
  have hmem : p ∈ database.tables := by simpa using hreg
  simp [loadTable, hmem, hfs, hdec]

/-- C3 (amended): for a SELECT over two registered nonempty tables of row
counts m and n with no WHERE filter and the wildcard projection, the
displayed table of an inner join has exactly m*n rows, and of a LEFT
[OUTER] JOIN exactly m*n + m + n rows: the outer branch appends, besides
the full cartesian product, every left row padded with Nulls on the right
AND every right row padded with Nulls on the left (the per-unmatched-row
re-inclusion only runs when a WHERE clause is present; and if exactly one
table were empty, the join would instead degenerate to the other table's
rows). -/
theorem c3_join_cardinality (fs : FS) (txn : Option TransactionAction) (database : Database)
    (T1 T2 : Table) (a1 a2 : TableAlias) (res : Bool × Table)
    (hwf1 : wfTypedTable T1 = true) (hwf2 : wfTypedTable T2 = true)
    (hm : T1.tuples ≠ []) (hn : T2.tuples ≠ [])
    (hreg1 : database.tables.contains (database.path ++ "/" ++ a1.table ++ ".table") = true)
    (hreg2 : database.tables.contains (database.path ++ "/" ++ a2.table ++ ".table") = true)
    (hfs1 : fs (database.path ++ "/" ++ a1.table ++ ".table") = some (encodeTable T1))
    (hfs2 : fs (database.path ++ "/" ++ a2.table ++ ".table") = some (encodeTable T2))
    (ha : a1.aliasName ≠ a2.aliasName)
    (hq : queryTable fs txn database ⟨[a1, a2], [], none⟩ = some res) :
    res.2.tuples.length = T1.tuples.length * T2.tuples.length +
      (if a2.joinType = JoinType.left then T1.tuples.length + T2.tuples.length else 0) := by
  have hload1 := loadTable_of_encode fs database T1
    (database.path ++ "/" ++ a1.table ++ ".table") hwf1 hreg1 hfs1
  have hload2 := loadTable_of_encode fs database T2
    (database.path ++ "/" ++ a2.table ++ ".table") hwf2 hreg2 hfs2
  have hAlen : (prepIndexed 0 a1
      { T1 with path := database.path ++ "/" ++ a1.table ++ ".table" }).tuples.length =
      T1.tuples.length := prepIndexed_tuples_length _ _ _
  have hBlen : (prepIndexed 1 a2
      { T2 with path := database.path ++ "/" ++ a2.table ++ ".table" }).tuples.length =
      T2.tuples.length := prepIndexed_tuples_length _ _ _
  have hAne : (prepIndexed 0 a1
      { T1 with path := database.path ++ "/" ++ a1.table ++ ".table" }).tuples ≠ [] := by
    intro h
    rw [h] at hAlen
    exact hm (List.length_eq_zero.mp hAlen.symm)
  have hBne : (prepIndexed 1 a2
      { T2 with path := database.path ++ "/" ++ a2.table ++ ".table" }).tuples ≠ [] := by
    intro h
    rw [h] at hBlen
    exact hn (List.length_eq_zero.mp hBlen.symm)
  have hdedup : ([a1.aliasName, a2.aliasName] : List String).dedup =
      [a1.aliasName, a2.aliasName] := by
    have h2 : ([a2.aliasName] : List String).dedup = [a2.aliasName] := by
      rw [List.dedup_cons_of_not_mem (by simp), List.dedup_nil]
    rw [List.dedup_cons_of_not_mem (by simp [h2, ha]), h2]
  have hstep1 : joinStep emptyTable
      (prepIndexed 0 a1 { T1 with path := database.path ++ "/" ++ a1.table ++ ".table" })
      a1.isOuterJoin =
      prepIndexed 0 a1 { T1 with path := database.path ++ "/" ++ a1.table ++ ".table" } :=
    joinStep_of_empty_acc _ _ _ rfl hAne
  rw [queryTable] at hq
  simp only [List.map_cons, List.map_nil, hdedup, bne_self_eq_false, Bool.false_eq_true,
    if_false, List.enum, List.enumFrom] at hq
  rw [loadJoin, hload1] at hq
  dsimp only at hq
  rw [hstep1, loadJoin, hload2] at hq
  dsimp only at hq
  rw [loadJoin] at hq
  dsimp only at hq
  simp only [queryFilterPhase, List.isEmpty_nil, if_true] at hq
  by_cases hemp : (removeIndexCols (joinStep
      (prepIndexed 0 a1 { T1 with path := database.path ++ "/" ++ a1.table ++ ".table" })
      (prepIndexed 1 a2 { T2 with path := database.path ++ "/" ++ a2.table ++ ".table" })
      a2.isOuterJoin)).columns.isEmpty = true
  · rw [if_pos hemp] at hq
    cases hq
  · rw [if_neg hemp] at hq
    simp only [Option.some.injEq] at hq
    rw [← hq]
    show (removeIndexCols _).tuples.length = _
    rw [removeIndexCols_tuples_length,
      joinStep_tuples_length _ _ _ hAne hBne, hAlen, hBlen]
    cases hjt : a2.joinType with
    | inner => simp [TableAlias.isOuterJoin, hjt]
    | left => simp [TableAlias.isOuterJoin, hjt]

/-- The concrete displayed table of the witness query: the inner join of
the two one-row tables. -/
def c3InnerResult : Bool × Table :=
  (false, ⟨"", "", [⟨"x.a", ⟨DataType.INT, 1⟩⟩, ⟨"y.b", ⟨DataType.INT, 1⟩⟩],
    [[Variant.int 1, Variant.int 2]]⟩)

/-- Witness for C3: the inner join of the two concrete one-row tables has
exactly 1*1 = 1 row. -/
theorem c3_join_cardinality_witness :
    c3InnerResult.2.tuples.length = c3T1.tuples.length * c3T2.tuples.length +
      (if (⟨"t2", "y", JoinType.inner⟩ : TableAlias).joinType = JoinType.left then
        c3T1.tuples.length + c3T2.tuples.length else 0) :=
  c3_join_cardinality c3Fs none c3Database c3T1 c3T2
    ⟨"t1", "x", JoinType.inner⟩ ⟨"t2", "y", JoinType.inner⟩ c3InnerResult
    (by decide) (by decide) (by decide) (by decide) (by decide) (by decide)
    (by decide) (by decide) (by decide) (by decide)

end SQLDB
